import Mathlib

/-
Verification of the PhenoTipsBot client library (phenotipsbot.py) and the
CSV exporter (export-csv.py).

Python strings are modelled as Lean `String`s; the character-level
operations used by the source (`in`, `startswith`, slicing) are computed on
the underlying `List Char` (`String.data`), which matches Python's
character-indexed semantics.  Network interaction is modelled by passing in
the relevant HTTP response data explicitly and returning the list of HTTP
requests a call issues; a Python exception is an `Except.error`.
-/

set_option autoImplicit false

namespace PhenoTipsBot

/-- Character membership in a character list; models Python's `c in s` for a
single-character string `c` (substring search for one character is exactly
character membership). -/
def containsChar : List Char → Char → Bool
  | [], _ => false
  | a :: as, c => a = c || containsChar as c

/-- Models Python's `s.startswith(p)`: `startsWithChars s p` is true iff the
list `p` is an initial segment of `s`. -/
def startsWithChars : List Char → List Char → Bool
  | _, [] => true
  | [], _ :: _ => false
  | a :: as, b :: bs => a = b && startsWithChars as bs

@[simp] theorem containsChar_nil (c : Char) : containsChar [] c = false := rfl

@[simp] theorem containsChar_cons (a : Char) (as : List Char) (c : Char) :
    containsChar (a :: as) c = (a = c || containsChar as c) := rfl

theorem containsChar_append (l₁ l₂ : List Char) (c : Char) :
    containsChar (l₁ ++ l₂) c = (containsChar l₁ c || containsChar l₂ c) := by
  induction l₁ with
  | nil => simp
  | cons a as ih => simp [ih, Bool.or_assoc]

@[simp] theorem startsWithChars_nil_right (l : List Char) :
    startsWithChars l [] = true := by
  cases l <;> rfl

theorem startsWithChars_append_left (p l : List Char) :
    startsWithChars (p ++ l) p = true := by
  induction p with
  | nil => simp
  | cons a as ih => simp [startsWithChars, ih]

/-- `PhenoTipsBot.qualify` (phenotipsbot.py:367-374), character-level core.
The Python default argument `namespace='XWiki'` is passed explicitly at every
call site of this embedding. -/
def qualifyChars (pagename ns : List Char) : List Char :=
  if pagename = [] then pagename
  else
    let p1 := if containsChar pagename '.' then pagename else ns ++ '.' :: pagename
    if containsChar p1 ':' then p1 else "xwiki:".data ++ p1

/-- `PhenoTipsBot.unqualify` (phenotipsbot.py:376-380), character-level core.
Python falls off the end of the function (returning `None`) when neither
`startswith` test matches; that is the `none` case. -/
def unqualifyChars (pagename ns : List Char) : Option (List Char) :=
  let q := "xwiki:".data ++ ns ++ ['.']
  if startsWithChars pagename q then some (pagename.drop q.length)
  else if startsWithChars pagename "xwiki:".data then some (pagename.drop "xwiki:".length)
  else none

/-- `PhenoTipsBot.qualify` on strings. -/
def qualify (pagename ns : String) : String :=
  ⟨qualifyChars pagename.data ns.data⟩

/-- `PhenoTipsBot.unqualify` on strings; `none` is Python's `None` result. -/
def unqualify (pagename ns : String) : Option String :=
  (unqualifyChars pagename.data ns.data).map String.mk

theorem drop_length_append (l₁ l₂ : List Char) : (l₁ ++ l₂).drop l₁.length = l₂ := by
  induction l₁ with
  | nil => simp
  | cons a as ih => simp [ih]

theorem unqualifyChars_qualified (ns rest : List Char) :
    unqualifyChars (("xwiki:".data ++ ns ++ ['.']) ++ rest) ns = some rest := by
  simp only [unqualifyChars]
  rw [startsWithChars_append_left, drop_length_append]
  simp

/-- A fully qualified bare name round-trips at the character level, provided
the namespace itself contains no colon. -/
theorem unqualifyChars_qualifyChars (n ns : List Char)
    (hne : n ≠ []) (hdot : containsChar n '.' = false)
    (hcol : containsChar n ':' = false) (hns : containsChar ns ':' = false) :
    unqualifyChars (qualifyChars n ns) ns = some n := by
  have hq : qualifyChars n ns = "xwiki:".data ++ (ns ++ '.' :: n) := by
    unfold qualifyChars
    rw [if_neg hne, hdot]
    simp only [if_false, Bool.false_eq_true]
    have h1 : containsChar (ns ++ '.' :: n) ':' = false := by
      rw [containsChar_append]
      simp [hns, hcol]
    rw [h1]
    simp
  have hsplit : qualifyChars n ns = ("xwiki:".data ++ ns ++ ['.']) ++ n := by
    rw [hq]; simp
  rw [hsplit, unqualifyChars_qualified]

theorem qualifyChars_idem (p ns : List Char) :
    qualifyChars (qualifyChars p ns) ns = qualifyChars p ns := by
  by_cases hp : p = []
  · subst hp; rfl
  · set p1 := if containsChar p '.' then p else ns ++ '.' :: p with hp1
    have hp1dot : containsChar p1 '.' = true := by
      rw [hp1]
      by_cases h : containsChar p '.'
      · simp [h]
      · simp [h, containsChar_append]
    have hp1ne : p1 ≠ [] := by
      rw [hp1]
      by_cases h : containsChar p '.'
      · simpa [h] using hp
      · simp [h]
    set q := if containsChar p1 ':' then p1 else "xwiki:".data ++ p1 with hq
    have hqval : qualifyChars p ns = q := by
      unfold qualifyChars
      rw [if_neg hp, ← hp1, ← hq]
    have hqdot : containsChar q '.' = true := by
      rw [hq]
      by_cases h : containsChar p1 ':'
      · simp [h, hp1dot]
      · simp [h, containsChar_append, hp1dot]
    have hqcol : containsChar q ':' = true := by
      rw [hq]
      by_cases h : containsChar p1 ':'
      · simp [h]
      · simp [h, containsChar_append]
    have hqne : q ≠ [] := by
      rw [hq]
      by_cases h : containsChar p1 ':'
      · simpa [h] using hp1ne
      · simp [h]
    rw [hqval]
    unfold qualifyChars
    rw [if_neg hqne, hqdot]
    simp only [if_true]
    rw [hqcol]
    simp

/-- HTTP request methods issued by the client. -/
inductive Method
  | GET
  | POST
  | PUT
  | DELETE
  deriving DecidableEq

/-- An HTTP request as issued by `requests.post/put/delete`: method, URL and
form data (the `data=` keyword argument, a key-value mapping). -/
structure HttpReq where
  method : Method
  url : String
  data : List (String × String)
  deriving DecidableEq

/-- A Python exception raised by the client. -/
inductive BotError
  | httpError (status : Nat)
  | typeError (msg : String)
  | keyError (key : String)
  | nameError (name : String)
  | attributeError
  | jsonError
  deriving DecidableEq

instance {ε α : Type} [DecidableEq ε] [DecidableEq α] : DecidableEq (Except ε α) := fun a b =>
  match a, b with
  | .ok x, .ok y =>
      if h : x = y then .isTrue (by rw [h]) else .isFalse fun hh => h (Except.ok.inj hh)
  | .error x, .error y =>
      if h : x = y then .isTrue (by rw [h]) else .isFalse fun hh => h (Except.error.inj hh)
  | .ok _, .error _ => .isFalse fun hh => Except.noConfusion hh
  | .error _, .ok _ => .isFalse fun hh => Except.noConfusion hh

/-- Models `requests.Response.raise_for_status`, which raises `HTTPError`
exactly for status codes 400-599. -/
def raises_for_status (status : Nat) : Bool :=
  400 ≤ status && status < 600

/-- The POST request issued by `create_object` (phenotipsbot.py:65-74): the
form data is the class name plus one `property#<key>` pair per entry of the
object.  The source additionally reads the created object's number from the
response's `location` header; none of the claims depend on that value. -/
def create_object_request (base patient_id object_class : String)
    (object_obj : List (String × String)) : HttpReq where
  method := .POST
  url := base ++ "/rest/wikis/xwiki/spaces/data/pages/" ++ patient_id ++ "/objects"
  data := ("className", object_class) :: object_obj.map (fun kv => ("property#" ++ kv.1, kv.2))

/-- The PUT request issued by `set_object` (phenotipsbot.py:314-320). -/
def set_object_request (base patient_id object_class object_num : String)
    (object_obj : List (String × String)) : HttpReq where
  method := .PUT
  url := base ++ "/rest/wikis/xwiki/spaces/data/pages/" ++ patient_id ++ "/objects/"
           ++ object_class ++ "/" ++ object_num
  data := object_obj.map (fun kv => ("property#" ++ kv.1, kv.2))

/-- `set_owner` (phenotipsbot.py:322-324).  The source computes
`owner_name = PhenoTipsBot.qualify(owner)` but then passes the original
`owner` (not `owner_name`) to `set_object`; the dead binding is kept here,
renamed with an underscore only to silence the unused-variable warning. -/
def set_owner_request (base patient_id owner : String) : HttpReq :=
  let _owner_name := qualify owner "XWiki"
  set_object_request base patient_id "PhenoTips.OwnerClass" "0" [("owner", owner)]

/-- Association-list lookup modelling Python dict indexing `bag[key]` on the
property bags built by `get_object` (each key occurs at most once). -/
def lookupBag (bag : List (String × String)) (key : String) : Option String :=
  (bag.find? (fun kv => kv.1 = key)).map (fun kv => kv.2)

/-- `get_owner` (phenotipsbot.py:157-158), as a function of the property bag
parsed by `get_object` for `PhenoTips.OwnerClass/0`: indexes `['owner']`
(KeyError when the key is absent) and strips the qualification; the `none`
payload is Python's `None` returned by `unqualify` on an unqualified
value. -/
def get_owner (owner_bag : List (String × String)) : Except BotError (Option String) :=
  match lookupBag owner_bag "owner" with
  | none => .error (.keyError "owner")
  | some v => .ok (unqualify v "XWiki")

set_option linter.unusedVariables false in
/-- `delete_object` (phenotipsbot.py:94-97).  Line 95 concatenates
`relative_num` into the URL, but the function's third parameter is named
`object_num` and no `relative_num` is bound in any enclosing scope, so every
call raises `NameError: name 'relative_num' is not defined` before any HTTP
request is built: no DELETE request is ever issued. -/
def delete_object (base patient_id object_class object_num : String) :
    Except BotError HttpReq :=
  .error (.nameError "relative_num")

/-- `delete_relative` (phenotipsbot.py:99-100); `delete_collaborator` and
`delete_vcf` differ only in the class-name constant. -/
def delete_relative (base patient_id relative_num : String) : Except BotError HttpReq :=
  delete_object base patient_id "PhenoTips.RelativeClass" relative_num

/-- `set_study` (phenotipsbot.py:340-357).  `getStatus` is the status code of
the initial existence-check GET on `.../PhenoTips.StudyBindingClass/0`, and
`mutStatus` the status code the server gives the mutation request (ignored in
branches that issue none).  The result pairs the list of mutation requests
issued (POST/PUT/DELETE; the existence-check GET is left implicit in
`getStatus`) with the call's outcome.  In the DELETE branch the source
discards the response of `requests.delete` and calls `raise_for_status` on
the old GET response again, so a failing DELETE raises nothing. -/
def set_study (base patient_id : String) (study : Option String)
    (getStatus mutStatus : Nat) : List HttpReq × Except BotError Unit :=
  let url := base ++ "/rest/wikis/xwiki/spaces/data/pages/" ++ patient_id
               ++ "/objects/PhenoTips.StudyBindingClass/0"
  if getStatus = 404 then
    match study with
    | none => ([], .ok ())
    | some s =>
        ([create_object_request base patient_id "PhenoTips.StudyBindingClass"
            [("studyReference", qualify s "Studies")]],
         if raises_for_status mutStatus then .error (.httpError mutStatus) else .ok ())
  else if raises_for_status getStatus then ([], .error (.httpError getStatus))
  else
    match study with
    | none => ([{ method := .DELETE, url := url, data := [] }], .ok ())
    | some s =>
        ([{ method := .PUT, url := url,
            data := [("property#studyReference", qualify s "Studies")] }],
         if raises_for_status mutStatus then .error (.httpError mutStatus) else .ok ())

/-- HTTP response to the GET on `/rest/patients/eid/{external_id}` as seen by
`get_id`: status code, raw `content-type` header, and the response body in
already-parsed form — `json_id` is the `id` field of the body parsed as JSON
(`none` when the body is not a JSON object carrying an `id`), and `xml_ids`
lists the text of the `alternatives/patient/id` elements of the body parsed
as XML. -/
structure EidResponse where
  status : Nat
  content_type : String
  json_id : Option String
  xml_ids : List String

/-- Python `header.split(';')[0]`: everything before the first `';'` (for a
single-character separator the first split component is exactly
`takeWhile`). -/
def headerMainPart (s : String) : String :=
  ⟨s.data.takeWhile (fun c => c ≠ ';')⟩

/-- Result of `get_id`: Python `None`, a single id string, or a list. -/
inductive GetIdResult
  | noMatch
  | oneMatch (id : String)
  | multiMatch (ids : List String)
  deriving DecidableEq

/-- `get_id` (phenotipsbot.py:131-145). -/
def get_id (r : EidResponse) : Except BotError GetIdResult :=
  if r.status = 404 then .ok .noMatch
  else if raises_for_status r.status then .error (.httpError r.status)
  else
    let content_type := headerMainPart r.content_type
    if content_type = "application/json" then
      match r.json_id with
      | some i => .ok (.oneMatch i)
      | none => .error .jsonError
    else if content_type = "application/xml" then .ok (.multiMatch r.xml_ids)
    else .error (.typeError "Expected JSON or XML")

/-- HTTP response to the GET on `.../PhenoTips.StudyBindingClass/0` used by
`get_study`: status code and the parsed `studyReference` property.  The
outer `Option` is ElementTree's `find` result (`none` when the
`studyReference` property or its value element is absent, in which case
`el.text` raises AttributeError); the inner `Option` is the element's `text`
(`none` for an empty element). -/
structure StudyBindingResponse where
  status : Nat
  studyReference : Option (Option String)

/-- `get_study` (phenotipsbot.py:166-178); the `none` result is Python
`None`.  Python `if not el.text` is true both for `None` and for the empty
string. -/
def get_study (r : StudyBindingResponse) : Except BotError (Option String) :=
  if r.status = 404 then .ok none
  else if raises_for_status r.status then .error (.httpError r.status)
  else
    match r.studyReference with
    | none => .error .attributeError
    | some text =>
      if text.getD "" = "" then .ok (some "")
      else .ok (unqualify (text.getD "") "Studies")

/-- A patient's primary property bag as parsed by `get_object` (a Python
dict from property name to value string). -/
abbrev Bag := List (String × String)

/-- One parsed `<property>` node of a class-schema XML document.  The
attribute sub-elements (`numberType`, `validationRegExp`, `values`) that
`list_class_properties` also copies into the descriptor are not modelled:
no claim depends on the descriptors, only on the names and their order. -/
structure ClassProperty where
  name : String
  type : String
  deriving DecidableEq

/-- OrderedDict assignment `d[k] = v`: replaces the value of an existing key
in place (keeping its position), appends a new key at the end. -/
def upsert : List (String × String) → String → String → List (String × String)
  | [], k, v => [(k, v)]
  | (k', v') :: rest, k, v =>
      if k' = k then (k, v) :: rest else (k', v') :: upsert rest k v

/-- `list_class_properties` (phenotipsbot.py:227-255): folds the schema's
`<property>` nodes in document order into an `OrderedDict` keyed by property
name. -/
def list_class_properties (props : List ClassProperty) : List (String × String) :=
  props.foldl (fun acc p => upsert acc p.name p.type) []

/-- The server-dependent behaviour `export_patients` sees from a
`PhenoTipsBot` instance: `get patient_id` is the outcome of
`bot.get(patient_id)` (the patient's parsed property bag, or the exception
the call raises), and `patient_class` is the parsed schema XML behind
`bot.list_patient_class_properties()` (fetched once per export). -/
structure BotModel where
  get : String → Except BotError Bag
  patient_class : List ClassProperty

/-- The property-name list driving header and row layout: iterating the
OrderedDict returned by `list_patient_class_properties` — both in
`writer.writerow(prop_names)` and in `for prop_name in prop_names` — yields
its keys in insertion order. -/
def propNames (bot : BotModel) : List String :=
  (list_class_properties bot.patient_class).map (fun kv => kv.1)

/-- Observable events of an `export_patients` run, in order: an invocation
of `progress_callback`, a call of `bot.get`, and a row written by
`writer.writerow`. -/
inductive ExportEvent
  | progress (count : Nat)
  | fetch (patient_id : String)
  | row (cells : List String)
  deriving DecidableEq

/-- Row construction for one patient (export-csv.py:47-49):
`for prop_name in prop_names: row.append(patient[prop_name])` — indexing a
missing key raises KeyError, and the partial row is never written. -/
def buildRow (patient : Bag) : List String → Except BotError (List String)
  | [] => .ok []
  | p :: ps =>
    match lookupBag patient p with
    | none => .error (.keyError p)
    | some v =>
      match buildRow patient ps with
      | .error e => .error e
      | .ok rest => .ok (v :: rest)

/-- The fetch-and-build step of one loop iteration (export-csv.py:46-49):
`bot.get` followed by row construction; the first exception propagates. -/
def fetchRow (get : String → Except BotError Bag) (prop_names : List String)
    (patient_id : String) : Except BotError (List String) :=
  match get patient_id with
  | .error e => .error e
  | .ok patient => buildRow patient prop_names

/-- The `for patient_id in patient_ids` loop of `export_patients`
(export-csv.py:42-51), with its two counters `count` and `n_exported`,
accumulating the event trace.  On an exception the loop stops and the
exception propagates; the events emitted before it remain. -/
def exportLoop (get : String → Except BotError Bag) (prop_names : List String) :
    List String → Nat → Nat → List ExportEvent × Except BotError Nat
  | [], _, n_exported => ([], .ok n_exported)
  | patient_id :: rest, count, n_exported =>
    let pre := [ExportEvent.progress count, ExportEvent.fetch patient_id]
    match fetchRow get prop_names patient_id with
    | .error e => (pre, .error e)
    | .ok row =>
      let next := exportLoop get prop_names rest (count + 1) (n_exported + 1)
      (pre ++ ExportEvent.row row :: next.1, next.2)

/-- `export_patients` (export-csv.py:32-53): fetches the schema, writes the
header row, runs the per-patient loop, and returns `n_exported` (the elapsed
wall-clock duration also returned by the source is real time and is not
modelled). -/
def export_patients (bot : BotModel) (patient_ids : List String) :
    List ExportEvent × Except BotError Nat :=
  let prop_names := propNames bot
  let res := exportLoop bot.get prop_names patient_ids 0 0
  (ExportEvent.row prop_names :: res.1, res.2)

/-- The rows written to `out_file`, in order, the header row included. -/
def writtenRows : List ExportEvent → List (List String)
  | [] => []
  | .row r :: rest => r :: writtenRows rest
  | .progress _ :: rest => writtenRows rest
  | .fetch _ :: rest => writtenRows rest

/-- The arguments of the `progress_callback` invocations, in order. -/
def progressCalls : List ExportEvent → List Nat
  | [] => []
  | .progress c :: rest => c :: progressCalls rest
  | .row _ :: rest => progressCalls rest
  | .fetch _ :: rest => progressCalls rest

/-- The row a successful iteration writes for one patient (specification
shorthand for stating the theorems below; meaningful under the success
hypotheses, where `fetchRow` is `.ok`). -/
def rowOf (get : String → Except BotError Bag) (props : List String)
    (patient_id : String) : List String :=
  match fetchRow get props patient_id with
  | .ok r => r
  | .error _ => []

/-- The event trace of a run of the export loop in which every iteration
succeeds, starting from counter value `count`. -/
def successTrace (get : String → Except BotError Bag) (props : List String) :
    List String → Nat → List ExportEvent
  | [], _ => []
  | patient_id :: rest, count =>
    .progress count :: .fetch patient_id :: .row (rowOf get props patient_id)
      :: successTrace get props rest (count + 1)

theorem raises_for_status_eq_false_of_lt {st : Nat} (h : st < 400) :
    raises_for_status st = false := by
  simp only [raises_for_status, Bool.and_eq_false_iff, decide_eq_false_iff_not, Nat.not_le]
  omega

theorem startsWithChars_mono (l p q : List Char)
    (h : startsWithChars l (p ++ q) = true) : startsWithChars l p = true := by
  induction p generalizing l with
  | nil => simp
  | cons a as ih =>
    cases l with
    | nil => simp [startsWithChars] at h
    | cons b bs =>
      simp only [List.cons_append, startsWithChars, Bool.and_eq_true] at h ⊢
      exact ⟨h.1, ih bs h.2⟩

/-- If a pagename does not start with `xwiki:`, `unqualify` returns Python
`None` (it falls through both `startswith` tests). -/
theorem unqualify_eq_none (p ns : String)
    (h : startsWithChars p.data "xwiki:".data = false) :
    unqualify p ns = none := by
  have h1 : startsWithChars p.data ("xwiki:".data ++ (ns.data ++ ['.'])) = false := by
    cases h2 : startsWithChars p.data ("xwiki:".data ++ (ns.data ++ ['.'])) with
    | false => rfl
    | true => rw [startsWithChars_mono _ _ _ h2] at h; cases h
  simp only [unqualify, unqualifyChars, List.append_assoc, h1, h]
  rfl

/-- Fully qualified names are unqualified by dropping the namespace marker. -/
theorem unqualify_qualified (ns rest : String) :
    unqualify ("xwiki:" ++ ns ++ "." ++ rest) ns = some rest := by
  have hdata : ("xwiki:" ++ ns ++ "." ++ rest).data
      = "xwiki:".data ++ ns.data ++ ['.'] ++ rest.data := by
    rw [String.data_append, String.data_append, String.data_append]
  show (unqualifyChars ("xwiki:" ++ ns ++ "." ++ rest).data ns.data).map String.mk
      = some rest
  rw [hdata, unqualifyChars_qualified]
  rfl

/-- C9: `qualify` is idempotent — re-qualifying an already qualified name
changes nothing, for every pagename and namespace. -/
theorem qualify_idempotent (n ns : String) :
    qualify (qualify n ns) ns = qualify n ns := by
  show String.mk (qualifyChars (qualifyChars n.data ns.data) ns.data)
      = String.mk (qualifyChars n.data ns.data)
  rw [qualifyChars_idem]

/-- C3 counterexample: with the bare, non-empty name `b` (no `.`, no `:`)
and the namespace `a:` (which contains a colon), `qualify` produces `a:.b`
(the `xwiki:` marker is suppressed because the name already contains a
colon) and `unqualify` then returns Python `None`, not `b`. -/
theorem roundtrip_counterexample :
    containsChar "b".data '.' = false ∧ containsChar "b".data ':' = false
    ∧ ("b" : String) ≠ ""
    ∧ qualify "b" "a:" = "a:.b"
    ∧ unqualify (qualify "b" "a:") "a:" = none := by decide

/-- C3 (amended): for every non-empty bare name `n` (containing neither `.`
nor `:`) and every namespace `ns` that does not contain `:`,
`unqualify (qualify n ns) ns = some n`. -/
theorem unqualify_qualify_roundtrip (n ns : String)
    (hne : n ≠ "") (hdot : containsChar n.data '.' = false)
    (hcol : containsChar n.data ':' = false)
    (hns : containsChar ns.data ':' = false) :
    unqualify (qualify n ns) ns = some n := by
  have hd : n.data ≠ [] := by
    intro h
    exact hne (String.ext (h.trans rfl))
  show (unqualifyChars (qualifyChars n.data ns.data) ns.data).map String.mk = some n
  rw [unqualifyChars_qualifyChars n.data ns.data hd hdot hcol hns]
  rfl

theorem unqualify_qualify_roundtrip_witness :
    unqualify (qualify "Bob" "XWiki") "XWiki" = some "Bob" :=
  unqualify_qualify_roundtrip "Bob" "XWiki" (by decide) (by decide) (by decide) (by decide)

/-- C4: the mutation requests issued by `set_study`, by case on the
existence-check response and the new study value: 404 with a null study
issues nothing; 404 with a study issues the creating POST (with the
`Studies`-qualified reference); an existing binding (success status) with a
study issues a PUT update on the sub-object URL; an existing binding with a
null study issues a DELETE of the sub-object. -/
theorem set_study_request_cases (base patient_id s : String) (st mutSt : Nat)
    (hst : st < 400) (h404 : st ≠ 404) :
    (set_study base patient_id none 404 mutSt).1 = []
    ∧ (set_study base patient_id (some s) 404 mutSt).1
        = [create_object_request base patient_id "PhenoTips.StudyBindingClass"
            [("studyReference", qualify s "Studies")]]
    ∧ (create_object_request base patient_id "PhenoTips.StudyBindingClass"
        [("studyReference", qualify s "Studies")]).method = .POST
    ∧ (set_study base patient_id (some s) st mutSt).1
        = [{ method := .PUT,
             url := base ++ "/rest/wikis/xwiki/spaces/data/pages/" ++ patient_id
                     ++ "/objects/PhenoTips.StudyBindingClass/0",
             data := [("property#studyReference", qualify s "Studies")] }]
    ∧ (set_study base patient_id none st mutSt).1
        = [{ method := .DELETE,
             url := base ++ "/rest/wikis/xwiki/spaces/data/pages/" ++ patient_id
                     ++ "/objects/PhenoTips.StudyBindingClass/0",
             data := [] }] := by
  have hrs := raises_for_status_eq_false_of_lt hst
  refine ⟨rfl, rfl, rfl, ?_, ?_⟩ <;> simp [set_study, h404, hrs]

theorem set_study_request_cases_witness :
    (set_study "http://localhost:8080" "P0000001" none 404 200).1 = []
    ∧ (set_study "http://localhost:8080" "P0000001" (some "MyStudy") 404 200).1
        = [create_object_request "http://localhost:8080" "P0000001"
            "PhenoTips.StudyBindingClass"
            [("studyReference", qualify "MyStudy" "Studies")]]
    ∧ (create_object_request "http://localhost:8080" "P0000001"
        "PhenoTips.StudyBindingClass"
        [("studyReference", qualify "MyStudy" "Studies")]).method = .POST
    ∧ (set_study "http://localhost:8080" "P0000001" (some "MyStudy") 200 200).1
        = [{ method := .PUT,
             url := "http://localhost:8080" ++ "/rest/wikis/xwiki/spaces/data/pages/"
                     ++ "P0000001" ++ "/objects/PhenoTips.StudyBindingClass/0",
             data := [("property#studyReference", qualify "MyStudy" "Studies")] }]
    ∧ (set_study "http://localhost:8080" "P0000001" none 200 200).1
        = [{ method := .DELETE,
             url := "http://localhost:8080" ++ "/rest/wikis/xwiki/spaces/data/pages/"
                     ++ "P0000001" ++ "/objects/PhenoTips.StudyBindingClass/0",
             data := [] }] :=
  set_study_request_cases "http://localhost:8080" "P0000001" "MyStudy" 200 200
    (by decide) (by decide)

/-- C5: `get_id` returns Python `None` on a 404; the `id` field of the JSON
body on a success response whose content type (before any `;` parameter) is
`application/json`; the list of ids from the XML body when it is
`application/xml`; and raises `TypeError` on any other content type. -/
theorem get_id_cases (r : EidResponse) (i : String) :
    (r.status = 404 → get_id r = .ok .noMatch)
    ∧ (r.status ≠ 404 → r.status < 400 →
        headerMainPart r.content_type = "application/json" →
        r.json_id = some i → get_id r = .ok (.oneMatch i))
    ∧ (r.status ≠ 404 → r.status < 400 →
        headerMainPart r.content_type = "application/xml" →
        get_id r = .ok (.multiMatch r.xml_ids))
    ∧ (r.status ≠ 404 → r.status < 400 →
        headerMainPart r.content_type ≠ "application/json" →
        headerMainPart r.content_type ≠ "application/xml" →
        get_id r = .error (.typeError "Expected JSON or XML")) := by
  refine ⟨fun h404 => by simp [get_id, h404], ?_, ?_, ?_⟩ <;>
    intro h404 hst hct
  · intro hj
    simp [get_id, h404, raises_for_status_eq_false_of_lt hst, hct, hj]
  · simp [get_id, h404, raises_for_status_eq_false_of_lt hst, hct]
  · intro hct2
    simp [get_id, h404, raises_for_status_eq_false_of_lt hst, hct, hct2]

theorem get_id_cases_witness :
    get_id ⟨404, "", none, []⟩ = .ok .noMatch
    ∧ get_id ⟨200, "application/json; charset=UTF-8", some "P0000001", []⟩
        = .ok (.oneMatch "P0000001")
    ∧ get_id ⟨200, "application/xml", none, ["P0000001", "P0000002"]⟩
        = .ok (.multiMatch ["P0000001", "P0000002"])
    ∧ get_id ⟨200, "text/html", none, []⟩
        = .error (.typeError "Expected JSON or XML") :=
  ⟨(get_id_cases ⟨404, "", none, []⟩ "x").1 rfl,
   (get_id_cases ⟨200, "application/json; charset=UTF-8", some "P0000001", []⟩
      "P0000001").2.1 (by decide) (by decide) (by decide) rfl,
   (get_id_cases ⟨200, "application/xml", none, ["P0000001", "P0000002"]⟩
      "x").2.2.1 (by decide) (by decide) (by decide),
   (get_id_cases ⟨200, "text/html", none, []⟩ "x").2.2.2
      (by decide) (by decide) (by decide) (by decide)⟩

/-- C7: `delete_object` never issues the DELETE request the claim describes:
the URL concatenation on line 95 uses the unbound name `relative_num`, so
every call — here with the patient ID, class name and object number the
claim mentions, and likewise through `delete_relative` — raises NameError
before any request is built. -/
theorem delete_object_raises_nameError :
    delete_object "http://localhost:8080" "P0000001" "PhenoTips.RelativeClass" "0"
      = .error (.nameError "relative_num")
    ∧ delete_relative "http://localhost:8080" "P0000001" "0"
      = .error (.nameError "relative_num") :=
  ⟨rfl, rfl⟩

/-- C8: `set_owner` writes the raw, unqualified owner value (the qualified
`owner_name` it computes on line 323 is never used), so the stored value for
the bare name `Bob` is `Bob` and not the qualified `xwiki:XWiki.Bob` the
claim requires; `get_owner`, by contrast, does strip a qualified stored
value back to its bare form. -/
theorem set_owner_sends_unqualified :
    (set_owner_request "http://localhost:8080" "P0000001" "Bob").data
      = [("property#owner", "Bob")]
    ∧ qualify "Bob" "XWiki" = "xwiki:XWiki.Bob"
    ∧ ("Bob" : String) ≠ "xwiki:XWiki.Bob"
    ∧ get_owner [("owner", "xwiki:XWiki.Bob")] = .ok (some "Bob") := by decide

/-- C10 counterexample: a 200 response whose binding carries the non-empty
but unqualified value `UnqualifiedStudy` makes `get_study` return Python
`None` even though the server did not respond 404, refuting the claimed
"returns null exactly when the server responds 404". -/
theorem get_study_counterexample :
    get_study ⟨200, some (some "UnqualifiedStudy")⟩ = .ok none
    ∧ (200 : Nat) ≠ 404 := by decide

/-- C10 (amended): `get_study` returns Python `None` when the lookup
responds 404, and also when a binding exists whose non-empty
`studyReference` value does not start with `xwiki:`; it returns the empty
string when a binding exists but its value is empty (absent text or empty
string); and otherwise it returns `unqualify value "Studies"` — the value
with its `xwiki:Studies.` marker (or, failing that, its `xwiki:` marker)
stripped. -/
theorem get_study_cases (r : StudyBindingResponse) (t : String) :
    (r.status = 404 → get_study r = .ok none)
    ∧ (r.status ≠ 404 → r.status < 400 → r.studyReference = some none →
        get_study r = .ok (some ""))
    ∧ (r.status ≠ 404 → r.status < 400 → r.studyReference = some (some "") →
        get_study r = .ok (some ""))
    ∧ (r.status ≠ 404 → r.status < 400 → r.studyReference = some (some t) →
        t ≠ "" → get_study r = .ok (unqualify t "Studies"))
    ∧ (startsWithChars t.data "xwiki:".data = false → unqualify t "Studies" = none)
    ∧ (∀ rest : String, unqualify ("xwiki:" ++ "Studies" ++ "." ++ rest) "Studies"
        = some rest) := by
  refine ⟨fun h404 => by simp [get_study, h404], ?_, ?_, ?_,
    fun h => unqualify_eq_none t "Studies" h,
    fun rest => unqualify_qualified "Studies" rest⟩ <;>
      intro h404 hst href
  · simp [get_study, h404, raises_for_status_eq_false_of_lt hst, href]
  · simp [get_study, h404, raises_for_status_eq_false_of_lt hst, href]
  · intro hne
    simp [get_study, h404, raises_for_status_eq_false_of_lt hst, href, hne]

theorem get_study_cases_witness :
    get_study ⟨404, none⟩ = .ok none
    ∧ get_study ⟨200, some none⟩ = .ok (some "")
    ∧ get_study ⟨200, some (some "xwiki:Studies.S1")⟩
        = .ok (unqualify "xwiki:Studies.S1" "Studies")
    ∧ unqualify ("xwiki:" ++ "Studies" ++ "." ++ "S1") "Studies" = some "S1" :=
  ⟨(get_study_cases ⟨404, none⟩ "x").1 rfl,
   (get_study_cases ⟨200, some none⟩ "x").2.1 (by decide) (by decide) rfl,
   (get_study_cases ⟨200, some (some "xwiki:Studies.S1")⟩
      "xwiki:Studies.S1").2.2.2.1 (by decide) (by decide) rfl (by decide),
   (get_study_cases ⟨404, none⟩ "x").2.2.2.2.2 "S1"⟩

theorem buildRow_eq_map (bag : Bag) : ∀ (props : List String) (r : List String),
    buildRow bag props = .ok r → r = props.map (fun p => (lookupBag bag p).getD "") := by
  intro props
  induction props with
  | nil =>
    intro r h
    simp only [buildRow] at h
    cases h
    rfl
  | cons p ps ih =>
    intro r h
    simp only [buildRow] at h
    cases hl : lookupBag bag p with
    | none => rw [hl] at h; exact Except.noConfusion h
    | some v =>
      rw [hl] at h
      cases hb : buildRow bag ps with
      | error e => rw [hb] at h; exact Except.noConfusion h
      | ok rest =>
        rw [hb] at h
        cases h
        simp only [List.map_cons, hl, Option.getD_some]
        exact congrArg (v :: ·) (ih rest hb)

theorem buildRow_isOk_of (bag : Bag) : ∀ (props : List String),
    (∀ p ∈ props, (lookupBag bag p).isSome) → ∃ r, buildRow bag props = .ok r := by
  intro props
  induction props with
  | nil => exact fun _ => ⟨[], rfl⟩
  | cons p ps ih =>
    intro h
    obtain ⟨v, hv⟩ := Option.isSome_iff_exists.mp (h p (List.mem_cons_self p ps))
    obtain ⟨rest, hrest⟩ := ih (fun q hq => h q (List.mem_cons_of_mem p hq))
    exact ⟨v :: rest, by simp only [buildRow, hv, hrest]⟩

theorem fetchRow_isOk (get : String → Except BotError Bag) (props : List String)
    (patient_id : String) (bag : Bag) (hget : get patient_id = .ok bag)
    (hkeys : ∀ p ∈ props, (lookupBag bag p).isSome) :
    ∃ r, fetchRow get props patient_id = .ok r := by
  obtain ⟨r, hr⟩ := buildRow_isOk_of bag props hkeys
  exact ⟨r, by simp only [fetchRow, hget, hr]⟩

theorem exportLoop_success (get : String → Except BotError Bag) (props : List String) :
    ∀ (ids : List String) (count n_exported : Nat),
    (∀ id ∈ ids, ∃ r, fetchRow get props id = .ok r) →
    exportLoop get props ids count n_exported
      = (successTrace get props ids count, .ok (n_exported + ids.length)) := by
  intro ids
  induction ids with
  | nil => intro count n _; simp [exportLoop, successTrace]
  | cons id rest ih =>
    intro count n h
    obtain ⟨r, hr⟩ := h id (List.mem_cons_self id rest)
    have hrest := ih (count + 1) (n + 1) (fun i hi => h i (List.mem_cons_of_mem id hi))
    have hrow : rowOf get props id = r := by simp [rowOf, hr]
    have harith : n + 1 + rest.length = n + (rest.length + 1) := by omega
    simp [exportLoop, hr, hrest, hrow, successTrace, harith]

theorem exportLoop_failure (get : String → Except BotError Bag) (props : List String) :
    ∀ (pre : List String) (bad : String) (post : List String)
      (count n_exported : Nat) (e : BotError),
    (∀ id ∈ pre, ∃ r, fetchRow get props id = .ok r) →
    fetchRow get props bad = .error e →
    exportLoop get props (pre ++ bad :: post) count n_exported
      = (successTrace get props pre count
          ++ [ExportEvent.progress (count + pre.length), ExportEvent.fetch bad],
         .error e) := by
  intro pre
  induction pre with
  | nil =>
    intro bad post count n e _ hbad
    simp [exportLoop, hbad, successTrace]
  | cons id rest ih =>
    intro bad post count n e hpre hbad
    obtain ⟨r, hr⟩ := hpre id (List.mem_cons_self id rest)
    have hrow : rowOf get props id = r := by simp [rowOf, hr]
    have hrest := ih bad post (count + 1) (n + 1) e
      (fun i hi => hpre i (List.mem_cons_of_mem id hi)) hbad
    have harith : count + 1 + rest.length = count + (rest.length + 1) := by omega
    simp [exportLoop, hr, hrest, hrow, successTrace, harith]

theorem writtenRows_append : ∀ (a b : List ExportEvent),
    writtenRows (a ++ b) = writtenRows a ++ writtenRows b := by
  intro a
  induction a with
  | nil => intro b; rfl
  | cons e rest ih =>
    intro b
    cases e <;> simp [writtenRows, ih b]

theorem writtenRows_successTrace (get : String → Except BotError Bag)
    (props : List String) : ∀ (ids : List String) (count : Nat),
    writtenRows (successTrace get props ids count) = ids.map (rowOf get props) := by
  intro ids
  induction ids with
  | nil => intro count; rfl
  | cons id rest ih => intro count; simp [successTrace, writtenRows, ih]

theorem progressCalls_successTrace (get : String → Except BotError Bag)
    (props : List String) : ∀ (ids : List String) (count : Nat),
    progressCalls (successTrace get props ids count) = List.range' count ids.length := by
  intro ids
  induction ids with
  | nil => intro count; rfl
  | cons id rest ih => intro count; simp [successTrace, progressCalls, ih, List.range']

theorem mem_writtenRows : ∀ (events : List ExportEvent) (r : List String),
    r ∈ writtenRows events → ExportEvent.row r ∈ events := by
  intro events
  induction events with
  | nil => intro r h; exact absurd h (List.not_mem_nil r)
  | cons e rest ih =>
    intro r h
    cases e with
    | row s =>
      simp only [writtenRows] at h
      rcases List.mem_cons.mp h with h1 | h2
      · exact List.mem_cons.mpr (Or.inl (by rw [h1]))
      · exact List.mem_cons_of_mem _ (ih r h2)
    | progress c =>
      simp only [writtenRows] at h
      exact List.mem_cons_of_mem _ (ih r h)
    | fetch i =>
      simp only [writtenRows] at h
      exact List.mem_cons_of_mem _ (ih r h)

theorem exportLoop_row_sound (get : String → Except BotError Bag) (props : List String) :
    ∀ (ids : List String) (count n_exported : Nat) (r : List String),
    ExportEvent.row r ∈ (exportLoop get props ids count n_exported).1 →
    ∃ id ∈ ids, ∃ bag, get id = .ok bag ∧ buildRow bag props = .ok r := by
  intro ids
  induction ids with
  | nil => intro count n r h; simp [exportLoop] at h
  | cons id rest ih =>
    intro count n r h
    cases hf : fetchRow get props id with
    | error e =>
      simp only [exportLoop, hf] at h
      simp at h
    | ok row =>
      simp only [exportLoop, hf, List.cons_append, List.nil_append, List.mem_cons] at h
      rcases h with h1 | h2 | h3 | h4
      · exact ExportEvent.noConfusion h1
      · exact ExportEvent.noConfusion h2
      · obtain rfl : r = row := ExportEvent.row.inj h3
        cases hg : get id with
        | error e => rw [fetchRow, hg] at hf; exact Except.noConfusion hf
        | ok bag =>
          rw [fetchRow, hg] at hf
          exact ⟨id, List.mem_cons_self id rest, bag, hg, hf⟩
      · obtain ⟨i, hi, bag, hg, hb⟩ := ih (count + 1) (n + 1) r h4
        exact ⟨i, List.mem_cons_of_mem id hi, bag, hg, hb⟩

theorem successTrace_getElem (get : String → Except BotError Bag) (props : List String) :
    ∀ (ids : List String) (count i : Nat) (hi : i < ids.length),
    (successTrace get props ids count)[3 * i]? = some (.progress (count + i))
    ∧ (successTrace get props ids count)[3 * i + 1]? = some (.fetch ids[i]) := by
  intro ids
  induction ids with
  | nil => intro count i hi; exact absurd hi (by simp)
  | cons id rest ih =>
    intro count i hi
    cases i with
    | zero => exact ⟨by simp [successTrace], by simp [successTrace]⟩
    | succ j =>
      have hj : j < rest.length := Nat.lt_of_succ_lt_succ (by simpa using hi)
      obtain ⟨h1, h2⟩ := ih (count + 1) j hj
      have hc : successTrace get props (id :: rest) count
          = .progress count :: .fetch id :: .row (rowOf get props id)
              :: successTrace get props rest (count + 1) := rfl
      have ha : count + 1 + j = count + (j + 1) := by omega
      constructor
      · rw [hc, show 3 * (j + 1) = 3 * j + 1 + 1 + 1 from by ring,
          List.getElem?_cons_succ, List.getElem?_cons_succ, List.getElem?_cons_succ,
          h1, ha]
      · rw [hc, show 3 * (j + 1) + 1 = 3 * j + 1 + 1 + 1 + 1 from by ring,
          List.getElem?_cons_succ, List.getElem?_cons_succ, List.getElem?_cons_succ,
          h2]
        rw [List.getElem_cons_succ]

/-- A server model on which every fetch succeeds: two patients with full
property bags for the two-column schema. -/
def annLeeBot : BotModel where
  get := fun i =>
    if i = "P0000001" then .ok [("first_name", "Ann"), ("last_name", "Lee")]
    else if i = "P0000002" then .ok [("first_name", "Bo"), ("last_name", "Smith")]
    else .error (.httpError 404)
  patient_class := [⟨"first_name", "String"⟩, ⟨"last_name", "String"⟩]

/-- A server model on which only `P0000001` fetches successfully and every
other fetch raises a 500. -/
def failBot : BotModel where
  get := fun i =>
    if i = "P0000001" then .ok [("first_name", "Ann"), ("last_name", "Lee")]
    else .error (.httpError 500)
  patient_class := [⟨"first_name", "String"⟩, ⟨"last_name", "String"⟩]

/-- A server model whose sole patient fetch succeeds but returns a property
bag missing the schema's property. -/
def missingKeyBot : BotModel where
  get := fun i => if i = "P0000001" then .ok [] else .error (.httpError 500)
  patient_class := [⟨"first_name", "String"⟩]

/-- C1 counterexample: every fetch of the single-patient export succeeds
(`bot.get` returns an empty property bag), yet `export_patients` does not
return the count 1 — line 49 of export-csv.py raises KeyError on the missing
schema property — so only the header row is ever written. -/
theorem export_count_counterexample :
    (∀ id ∈ ["P0000001"], ∃ bag, missingKeyBot.get id = .ok bag)
    ∧ (export_patients missingKeyBot ["P0000001"]).2 = .error (.keyError "first_name")
    ∧ (export_patients missingKeyBot ["P0000001"]).2
        ≠ .ok (["P0000001"] : List String).length
    ∧ writtenRows (export_patients missingKeyBot ["P0000001"]).1
        = [propNames missingKeyBot] := by
  refine ⟨?_, by decide, by decide, by decide⟩
  intro id hid
  simp only [List.mem_cons, List.not_mem_nil, or_false] at hid
  subst hid
  exact ⟨[], rfl⟩

/-- C1 (amended): if every per-patient fetch succeeds AND every fetched
property bag contains a value for every schema property name, then
`export_patients` returns a count equal to the number of input IDs and
writes, after the header, exactly one data row per ID in input order; and if
the IDs split as `pre ++ bad :: post` where every fetch over `pre` succeeds
(with complete bags) and the fetch of `bad` raises `e`, the export aborts
with that exception, writes no rows for `bad` or `post`, and the header and
the rows for `pre` remain in the output. -/
theorem export_count_and_abort (bot : BotModel) (ids : List String) :
    ((∀ id ∈ ids, ∃ bag, bot.get id = .ok bag
        ∧ ∀ p ∈ propNames bot, (lookupBag bag p).isSome) →
      (export_patients bot ids).2 = .ok ids.length
      ∧ writtenRows (export_patients bot ids).1
          = propNames bot :: ids.map (rowOf bot.get (propNames bot)))
    ∧ (∀ (pre : List String) (bad : String) (post : List String) (e : BotError),
        ids = pre ++ bad :: post →
        (∀ id ∈ pre, ∃ bag, bot.get id = .ok bag
            ∧ ∀ p ∈ propNames bot, (lookupBag bag p).isSome) →
        bot.get bad = .error e →
        (export_patients bot ids).2 = .error e
        ∧ writtenRows (export_patients bot ids).1
            = propNames bot :: pre.map (rowOf bot.get (propNames bot))) := by
  constructor
  · intro h
    have hf : ∀ id ∈ ids, ∃ r, fetchRow bot.get (propNames bot) id = .ok r := by
      intro id hid
      obtain ⟨bag, hg, hk⟩ := h id hid
      exact fetchRow_isOk bot.get (propNames bot) id bag hg hk
    have hloop := exportLoop_success bot.get (propNames bot) ids 0 0 hf
    constructor
    · show (exportLoop bot.get (propNames bot) ids 0 0).2 = .ok ids.length
      rw [hloop]
      simp
    · have hw : writtenRows (export_patients bot ids).1
          = propNames bot
              :: writtenRows (exportLoop bot.get (propNames bot) ids 0 0).1 := rfl
      rw [hw, hloop, writtenRows_successTrace]
  · intro pre bad post e hids hpre hbad
    subst hids
    have hf : ∀ id ∈ pre, ∃ r, fetchRow bot.get (propNames bot) id = .ok r := by
      intro id hid
      obtain ⟨bag, hg, hk⟩ := hpre id hid
      exact fetchRow_isOk bot.get (propNames bot) id bag hg hk
    have hbadf : fetchRow bot.get (propNames bot) bad = .error e := by
      simp only [fetchRow, hbad]
    have hloop := exportLoop_failure bot.get (propNames bot) pre bad post 0 0 e hf hbadf
    constructor
    · show (exportLoop bot.get (propNames bot) (pre ++ bad :: post) 0 0).2 = .error e
      rw [hloop]
    · have hw : writtenRows (export_patients bot (pre ++ bad :: post)).1
          = propNames bot
              :: writtenRows
                  (exportLoop bot.get (propNames bot) (pre ++ bad :: post) 0 0).1 := rfl
      rw [hw, hloop, writtenRows_append, writtenRows_successTrace]
      simp [writtenRows]

theorem export_count_and_abort_witness :
    ((export_patients annLeeBot ["P0000001", "P0000002"]).2
        = .ok (["P0000001", "P0000002"] : List String).length
      ∧ writtenRows (export_patients annLeeBot ["P0000001", "P0000002"]).1
          = propNames annLeeBot
              :: (["P0000001", "P0000002"] : List String).map
                  (rowOf annLeeBot.get (propNames annLeeBot)))
    ∧ ((export_patients failBot ["P0000001", "P0000002"]).2 = .error (.httpError 500)
      ∧ writtenRows (export_patients failBot ["P0000001", "P0000002"]).1
          = propNames failBot
              :: (["P0000001"] : List String).map
                  (rowOf failBot.get (propNames failBot))) :=
  ⟨(export_count_and_abort annLeeBot ["P0000001", "P0000002"]).1
    (by
      intro id hid
      simp only [List.mem_cons, List.not_mem_nil, or_false] at hid
      rcases hid with rfl | rfl
      · exact ⟨[("first_name", "Ann"), ("last_name", "Lee")], by decide, by decide⟩
      · exact ⟨[("first_name", "Bo"), ("last_name", "Smith")], by decide, by decide⟩),
   (export_count_and_abort failBot ["P0000001", "P0000002"]).2
    ["P0000001"] "P0000002" [] (.httpError 500) rfl
    (by
      intro id hid
      simp only [List.mem_cons, List.not_mem_nil, or_false] at hid
      subst hid
      exact ⟨[("first_name", "Ann"), ("last_name", "Lee")], by decide, by decide⟩)
    (by decide)⟩

set_option linter.unusedVariables false in
/-- C2: the first row `export_patients` writes is the header — the schema's
property names, in the order `list_class_properties` returns them — and
every subsequent (data) row is some fetched patient's property values read
off in exactly that same column order. -/
theorem export_header_and_columns (bot : BotModel) (ids : List String)
    (hne : propNames bot ≠ []) :
    (writtenRows (export_patients bot ids).1).head? = some (propNames bot)
    ∧ ∀ r ∈ (writtenRows (export_patients bot ids).1).tail,
        ∃ id ∈ ids, ∃ bag, bot.get id = .ok bag
          ∧ r = (propNames bot).map (fun p => (lookupBag bag p).getD "") := by
  have hw : writtenRows (export_patients bot ids).1
      = propNames bot
          :: writtenRows (exportLoop bot.get (propNames bot) ids 0 0).1 := rfl
  constructor
  · rw [hw]
    rfl
  · intro r hr
    rw [hw] at hr
    have hr' : ExportEvent.row r ∈ (exportLoop bot.get (propNames bot) ids 0 0).1 :=
      mem_writtenRows _ r hr
    obtain ⟨id, hid, bag, hg, hb⟩ :=
      exportLoop_row_sound bot.get (propNames bot) ids 0 0 r hr'
    exact ⟨id, hid, bag, hg, buildRow_eq_map bag (propNames bot) r hb⟩

theorem export_header_and_columns_witness :
    (propNames annLeeBot ≠ [])
    ∧ (writtenRows (export_patients annLeeBot ["P0000001", "P0000002"]).1).head?
        = some (propNames annLeeBot)
    ∧ ∀ r ∈ (writtenRows (export_patients annLeeBot ["P0000001", "P0000002"]).1).tail,
        ∃ id ∈ ["P0000001", "P0000002"], ∃ bag, annLeeBot.get id = .ok bag
          ∧ r = (propNames annLeeBot).map (fun p => (lookupBag bag p).getD "") :=
  ⟨by decide,
   (export_header_and_columns annLeeBot ["P0000001", "P0000002"] (by decide)).1,
   (export_header_and_columns annLeeBot ["P0000001", "P0000002"] (by decide)).2⟩

/-- C6 counterexample: with two patient IDs whose first fetch raises, the
progress callback is invoked only once (with the value 0), not once per
input ID, refuting the unconditional "invokes the progress callback exactly
n times". -/
theorem progress_calls_counterexample :
    progressCalls (export_patients failBot ["P0000002", "P0000001"]).1 = [0]
    ∧ (["P0000002", "P0000001"] : List String).length = 2 := by decide

/-- C6 (amended): when the export completes — every fetch succeeds and every
fetched bag has a value for every schema property — the progress callback is
invoked exactly once per patient, with the values `0..n-1` in increasing
order, and the invocation with value `i` happens at a strictly earlier
position in the event trace than the fetch of the `i`-th patient. -/
theorem progress_calls_in_order (bot : BotModel) (ids : List String)
    (h : ∀ id ∈ ids, ∃ bag, bot.get id = .ok bag
        ∧ ∀ p ∈ propNames bot, (lookupBag bag p).isSome) :
    progressCalls (export_patients bot ids).1 = List.range ids.length
    ∧ ∀ (i : Nat) (hi : i < ids.length),
        ∃ j k : Nat, j < k
          ∧ (export_patients bot ids).1[j]? = some (.progress i)
          ∧ (export_patients bot ids).1[k]? = some (.fetch ids[i]) := by
  have hf : ∀ id ∈ ids, ∃ r, fetchRow bot.get (propNames bot) id = .ok r := by
    intro id hid
    obtain ⟨bag, hg, hk⟩ := h id hid
    exact fetchRow_isOk bot.get (propNames bot) id bag hg hk
  have hloop := exportLoop_success bot.get (propNames bot) ids 0 0 hf
  have htrace : (export_patients bot ids).1
      = ExportEvent.row (propNames bot)
          :: (exportLoop bot.get (propNames bot) ids 0 0).1 := rfl
  constructor
  · have hp : progressCalls (export_patients bot ids).1
        = progressCalls (exportLoop bot.get (propNames bot) ids 0 0).1 := rfl
    rw [hp, hloop, progressCalls_successTrace, List.range_eq_range' ids.length]
  · intro i hi
    obtain ⟨h1, h2⟩ :=
      successTrace_getElem bot.get (propNames bot) ids 0 i hi
    refine ⟨3 * i + 1, 3 * i + 2, by omega, ?_, ?_⟩
    · rw [htrace, List.getElem?_cons_succ, hloop, h1, Nat.zero_add]
    · rw [htrace, show 3 * i + 2 = 3 * i + 1 + 1 from by ring,
        List.getElem?_cons_succ, hloop, h2]

theorem progress_calls_in_order_witness :
    progressCalls (export_patients annLeeBot ["P0000001", "P0000002"]).1
      = List.range (["P0000001", "P0000002"] : List String).length
    ∧ ∀ (i : Nat) (hi : i < (["P0000001", "P0000002"] : List String).length),
        ∃ j k : Nat, j < k
          ∧ (export_patients annLeeBot ["P0000001", "P0000002"]).1[j]?
              = some (.progress i)
          ∧ (export_patients annLeeBot ["P0000001", "P0000002"]).1[k]?
              = some (.fetch (["P0000001", "P0000002"] : List String)[i]) :=
  progress_calls_in_order annLeeBot ["P0000001", "P0000002"]
    (by
      intro id hid
      simp only [List.mem_cons, List.not_mem_nil, or_false] at hid
      rcases hid with rfl | rfl
      · exact ⟨[("first_name", "Ann"), ("last_name", "Lee")], by decide, by decide⟩
      · exact ⟨[("first_name", "Bo"), ("last_name", "Smith")], by decide, by decide⟩)

end PhenoTipsBot
